import Mathlib

/-!
Verification of the streaming relay ("Copilot extension" bridge).

The repository carries three near-duplicate revisions of one streaming
bridge; the design document treats them as one target design:
  * `src/unnamed/part_001` — the most complete revision (liveness counters,
    fallback content, guaranteed Done, reader cleanup); embedded below with
    the unprefixed names (`processLine`, `feed`, `loop1`, `handler1`, ...);
  * `src/src/fis.ts` — a revision whose data-line branch of the line loop is
    guarded by `buffer.length < 4096` and which has no fallback Text event;
    embedded below with the `fis` prefix;
  * `src/unnamed/part_000` — a revision that throws when the upstream read
    loop sees the end-of-stream read; embedded below with the `p0` prefix.

Byte chunks are modelled as `List Char` (the code decodes chunks with a
streaming `TextDecoder`, which is chunk-boundary invariant on valid UTF-8,
so the logical stream is its decoded text).  Upstream JSON is modelled by
the `Json` type and the fuel-based `parseJson` below, a model of
`JSON.parse` (numbers keep their literal spelling; their only semantically
relevant use in the code is truthiness / strict equality with 0).
Downstream events are the `Ev` type; `createAckEvent` / `createTextEvent` /
`createErrorsEvent` / `createDoneEvent` become its four constructors.
-/

/-- The whitespace test used by the model of the JS `String.prototype.trim`
(the source only ever trims ASCII whitespace: the split lines cannot contain
a newline, and upstream payloads are ASCII-framed). -/
def isWsChar (c : Char) : Bool :=
  c = ' ' || c = '\t' || c = '\r' || c = '\n' || c = '\x0b' || c = '\x0c'

/-- Model of the JS `line.trim()`: drop whitespace from both ends. -/
def trimChars (s : List Char) : List Char :=
  ((s.dropWhile isWsChar).reverse.dropWhile isWsChar).reverse

/-- Model of the JS `buffer.split('\n')`: the pieces of `s` between the
newline characters, in order; never empty, and a trailing newline yields a
trailing empty piece, exactly as in JS. -/
def splitNl : List Char → List (List Char)
  | [] => [[]]
  | c :: rest =>
    if c = '\n' then [] :: splitNl rest
    else (c :: (splitNl rest).headI) :: (splitNl rest).tail

/-- The last piece of a split result (the JS `lines.pop()`, which on the
nonempty result of `split` is its last element). -/
def lastD : List (List Char) → List Char
  | [] => []
  | [x] => x
  | _ :: x :: xs => lastD (x :: xs)

/-- Model of a JS JSON value as produced by `JSON.parse`.  A number keeps
its literal spelling: the code only ever uses numbers through truthiness
and strict equality with 0, both decidable from the spelling. -/
inductive Json : Type
  | null : Json
  | bool (b : Bool) : Json
  | num (lex : List Char) : Json
  | str (s : List Char) : Json
  | arr (elems : List Json) : Json
  | obj (fields : List (List Char × Json)) : Json

/-- JSON inter-token whitespace. -/
def jsonWs (s : List Char) : List Char :=
  s.dropWhile (fun c => c = ' ' || c = '\t' || c = '\n' || c = '\r')

def hexVal (c : Char) : Option Nat :=
  if '0' ≤ c ∧ c ≤ '9' then some (c.toNat - 48)
  else if 'a' ≤ c ∧ c ≤ 'f' then some (c.toNat - 87)
  else if 'A' ≤ c ∧ c ≤ 'F' then some (c.toNat - 55)
  else none

def escChar (c : Char) : Option Char :=
  if c = '\"' then some '\"'
  else if c = '\\' then some '\\'
  else if c = '/' then some '/'
  else if c = 'n' then some '\n'
  else if c = 't' then some '\t'
  else if c = 'r' then some '\r'
  else if c = 'b' then some (Char.ofNat 8)
  else if c = 'f' then some (Char.ofNat 12)
  else none

/-- Body of a JSON string, after the opening quote: returns the decoded
characters and the remaining input.  Unescaped control characters are
rejected, as `JSON.parse` rejects them. -/
def parseStrBody : List Char → List Char → Option (List Char × List Char)
  | acc, '\"' :: rest => some (acc.reverse, rest)
  | acc, '\\' :: 'u' :: h1 :: h2 :: h3 :: h4 :: rest =>
    match hexVal h1, hexVal h2, hexVal h3, hexVal h4 with
    | some a, some b, some c, some d =>
      parseStrBody (Char.ofNat (((a * 16 + b) * 16 + c) * 16 + d) :: acc) rest
    | _, _, _, _ => none
  | acc, '\\' :: e :: rest =>
    match escChar e with
    | some c => parseStrBody (c :: acc) rest
    | none => none
  | acc, c :: rest =>
    if c.toNat < 32 then none else parseStrBody (c :: acc) rest
  | _, [] => none

def parseFrac (s : List Char) : Option (List Char × List Char) :=
  match s with
  | '.' :: r =>
    let d := r.takeWhile Char.isDigit
    if d = [] then none else some ('.' :: d, r.dropWhile Char.isDigit)
  | _ => some ([], s)

def parseExp (s : List Char) : Option (List Char × List Char) :=
  match s with
  | e :: r =>
    if e = 'e' ∨ e = 'E' then
      let (sgn, r2) : List Char × List Char :=
        match r with
        | '+' :: r2 => (['+'], r2)
        | '-' :: r2 => (['-'], r2)
        | _ => ([], r)
      let d := r2.takeWhile Char.isDigit
      if d = [] then none
      else some (e :: (sgn ++ d), r2.dropWhile Char.isDigit)
    else some ([], s)
  | [] => some ([], [])

/-- A JSON number literal (sign, integer part without superfluous leading
zero, optional fraction, optional exponent); returns the lexeme. -/
def parseNum (s : List Char) : Option (List Char × List Char) :=
  let (sgn, s1) : List Char × List Char :=
    match s with
    | '-' :: r => (['-'], r)
    | _ => ([], s)
  let intD := s1.takeWhile Char.isDigit
  let s2 := s1.dropWhile Char.isDigit
  if intD = [] then none
  else if 1 < intD.length ∧ intD.headI = '0' then none
  else
    match parseFrac s2 with
    | none => none
    | some (fr, s3) =>
      match parseExp s3 with
      | none => none
      | some (ex, s4) => some (sgn ++ intD ++ fr ++ ex, s4)

mutual

/-- Fuel-based model of `JSON.parse` (value position).  The fuel only
bounds recursion depth; `parseJson` supplies more fuel than any input can
consume. -/
def parseVal : Nat → List Char → Option (Json × List Char)
  | 0, _ => none
  | Nat.succ fuel, s =>
    match jsonWs s with
    | '\x7b' :: rest => parseObjBody fuel (jsonWs rest)
    | '[' :: rest => parseArrBody fuel (jsonWs rest)
    | '\"' :: rest =>
      match parseStrBody [] rest with
      | some (cs, r) => some (Json.str cs, r)
      | none => none
    | 't' :: 'r' :: 'u' :: 'e' :: rest => some (Json.bool true, rest)
    | 'f' :: 'a' :: 'l' :: 's' :: 'e' :: rest => some (Json.bool false, rest)
    | 'n' :: 'u' :: 'l' :: 'l' :: rest => some (Json.null, rest)
    | rest =>
      match parseNum rest with
      | some (lex, r) => some (Json.num lex, r)
      | none => none

def parseObjBody : Nat → List Char → Option (Json × List Char)
  | 0, _ => none
  | Nat.succ fuel, s =>
    match s with
    | '\x7d' :: rest => some (Json.obj [], rest)
    | _ => parseMembers fuel s []

def parseMembers :
    Nat → List Char → List (List Char × Json) → Option (Json × List Char)
  | 0, _, _ => none
  | Nat.succ fuel, s, acc =>
    match s with
    | '\"' :: rest =>
      match parseStrBody [] rest with
      | some (key, r1) =>
        match jsonWs r1 with
        | ':' :: r2 =>
          match parseVal fuel (jsonWs r2) with
          | some (v, r3) =>
            match jsonWs r3 with
            | ',' :: r4 => parseMembers fuel (jsonWs r4) ((key, v) :: acc)
            | '\x7d' :: r4 => some (Json.obj ((key, v) :: acc).reverse, r4)
            | _ => none
          | none => none
        | _ => none
      | none => none
    | _ => none

def parseArrBody : Nat → List Char → Option (Json × List Char)
  | 0, _ => none
  | Nat.succ fuel, s =>
    match s with
    | ']' :: rest => some (Json.arr [], rest)
    | _ => parseElems fuel s []

def parseElems : Nat → List Char → List Json → Option (Json × List Char)
  | 0, _, _ => none
  | Nat.succ fuel, s, acc =>
    match parseVal fuel s with
    | some (v, r) =>
      match jsonWs r with
      | ',' :: r2 => parseElems fuel (jsonWs r2) (v :: acc)
      | ']' :: r2 => some (Json.arr (v :: acc).reverse, r2)
      | _ => none
    | none => none

end

/-- Model of `JSON.parse message`: a single JSON value spanning the whole
input (up to whitespace), otherwise failure. -/
def parseJson (s : List Char) : Option Json :=
  match parseVal (3 * s.length + 16) s with
  | some (v, rest) => if jsonWs rest = [] then some v else none
  | none => none

/-- Zero test for a JSON number literal (JS strict equality with 0 holds
exactly when every mantissa digit is 0, whatever the exponent). -/
def jsNumIsZero (lex : List Char) : Bool :=
  (lex.takeWhile (fun c => !(c = 'e' || c = 'E'))).all
    (fun c => !c.isDigit || c = '0')

/-- JS falsiness of a parsed JSON value (`undefined` is represented as a
missing `Option` at use sites). -/
def jsFalsy : Json → Bool
  | Json.null => true
  | Json.bool b => !b
  | Json.num lex => jsNumIsZero lex
  | Json.str s => s.isEmpty
  | Json.arr _ => false
  | Json.obj _ => false

/-- Property lookup on a parsed JSON object: with duplicate keys in a JSON
text the last occurrence wins, as in `JSON.parse`. -/
def jsLookup (fields : List (List Char × Json)) (key : List Char) :
    Option Json :=
  fields.foldl (fun acc kv => if kv.1 = key then some kv.2 else acc) none

/-- Property access `v.k` where a non-object yields `undefined` (`none`).
A `null` receiver would throw in JS; the surrounding try/catch swallows
that, and no claim involves a successfully parsed record with a null
message entry, so `none` is a faithful observable model here. -/
def jGet : Json → List Char → Option Json
  | Json.obj fields, k => jsLookup fields k
  | _, _ => none

def keyType : List Char := String.toList ("type")

def keyContent : List Char := String.toList ("content")

def keyToolCalls : List Char := String.toList ("tool_calls")

def keyMessages : List Char := String.toList ("messages")

def keyLength : List Char := String.toList ("length")

/-- The JS test `v.length === 0`: arrays and strings report their length;
a plain object only through an own `length` property; anything else gives
`undefined`, and `undefined === 0` is false. -/
def jsLenIsZero : Json → Bool
  | Json.arr xs => xs.isEmpty
  | Json.str s => s.isEmpty
  | Json.obj fields =>
    match jsLookup fields keyLength with
    | some (Json.num lex) => jsNumIsZero lex
    | _ => false
  | _ => false

/-- The JS test `!msg.tool_calls || msg.tool_calls.length === 0`. -/
def toolCallsAbsentOrEmpty : Option Json → Bool
  | none => true
  | some v => jsFalsy v || jsLenIsZero v

def aiTag : List Char := String.toList ("ai")

def pingTok : List Char := String.toList ("ping")

def dataMark : List Char := String.toList ("data: ")

/-- Fragments contributed by one entry of a record's `messages` array, per
part_001 lines 205–217: the entry must be role-tagged `"ai"`, its `content`
must be a truthy string that is still truthy after trimming (`msg.content &&
typeof msg.content === 'string' && msg.content.trim()`), and its
`tool_calls` must be absent, falsy, or of length 0.  The `match`
fall-through covers entries whose `type`/`content` are missing or
non-strings, which fail the strict-equality/typeof tests in JS. -/
def extractMsg (m : Json) : List (List Char) :=
  match m with
  | Json.obj fields =>
    (match jsLookup fields keyType,
           jsLookup fields keyContent with
     | some (Json.str ty), some (Json.str s) =>
       if ty = aiTag ∧ s ≠ [] ∧ trimChars s ≠ [] ∧
          toolCallsAbsentOrEmpty
            (jsLookup fields keyToolCalls) = true
       then [s] else []
     | _, _ => [])
  | _ => []

/-- Fragments of one complete line, per part_001 lines 187–231: trim the
line; skip empty lines; recognize the `data: ` marker; trim the payload and
skip empty payloads and the `ping` keep-alive; require an object-opening
brace; decode with the `JSON.parse` model (a failure contributes nothing);
extract from the `messages` array entries, then from a top-level string
`content` field (`eventObj.content && typeof eventObj.content ===
'string'`).  `recordFrags` is the body of the decode-success branch:
fragments from the `messages` array entries, then from a top-level string
`content` field. -/
def recordFrags (j : Json) : List (List Char) :=
  (match jGet j keyMessages with
   | some (Json.arr msgs) => (msgs.map extractMsg).flatten
   | _ => []) ++
  (match jGet j keyContent with
   | some (Json.str s) => if s ≠ [] then [s] else []
   | _ => [])

def processLine (line : List Char) : List (List Char) :=
  if trimChars line = [] then []
  else if dataMark.isPrefixOf (trimChars line) then
    if trimChars ((trimChars line).drop 6) = [] ∨
       trimChars ((trimChars line).drop 6) = pingTok then []
    else if (['\x7b'] : List Char).isPrefixOf
        (trimChars ((trimChars line).drop 6)) then
      match parseJson (trimChars ((trimChars line).drop 6)) with
      | none => []
      | some j => recordFrags j
    else []
  else []

/-- One chunk step of the part_001 Stream Reassembler (lines 180–231):
append the decoded chunk to the pending buffer, split on newline, keep the
final piece as the new buffer (`buffer = lines.pop() || ''`), and process
each complete line.  Returns the new buffer and the fragments of this step,
in discovery order. -/
def feed (buf chunk : List Char) : List Char × List (List Char) :=
  (lastD (splitNl (buf ++ chunk)),
   ((splitNl (buf ++ chunk)).dropLast.map processLine).flatten)

/-- Feeding a sequence of chunks one at a time. -/
def feedList (buf : List Char) : List (List Char) → List Char × List (List Char)
  | [] => (buf, [])
  | c :: cs =>
    ((feedList (feed buf c).1 cs).1,
     (feed buf c).2 ++ (feedList (feed buf c).1 cs).2)

/-- Fragments contributed by one `messages` entry in the fis.ts revision
(lines 158–166): role `"ai"`, truthy `content`, and `tool_calls` absent,
falsy or of length 0 — without the `typeof`/`trim` refinements of
part_001.  A truthy non-string `content` never occurs within the claims'
scope (it would be stringified downstream by the SDK event constructor). -/
def fisExtractMsg (m : Json) : List (List Char) :=
  match m with
  | Json.obj fields =>
    (match jsLookup fields keyType,
           jsLookup fields keyContent with
     | some (Json.str ty), some (Json.str s) =>
       if ty = aiTag ∧ s ≠ [] ∧
          toolCallsAbsentOrEmpty
            (jsLookup fields keyToolCalls) = true
       then [s] else []
     | _, _ => [])
  | _ => []

/-- Fragments of one complete line in the fis.ts revision (lines 143–189),
processed while the residual buffer is `buf`.  The `event: values` branch
(lines 146–153) never emits: a line starting with `event: values` cannot
also start with `data: `, so its inner check always falls through.  The
`data: {` branch (line 170) is additionally guarded by
`buffer.length < 4096`, where `buffer` is the residual piece kept back
from the current chunk — line processing therefore depends on how the
stream was chunked. -/
def fisProcessLine (buf line : List Char) : List (List Char) :=
  let l := trimChars line
  if (String.toList ("event: values")).isPrefixOf l then []
  else if (String.toList ("data: \x7b")).isPrefixOf l ∧ buf.length < 4096 then
    match parseJson (l.drop 6) with
    | none => []
    | some j =>
      match jGet j keyMessages with
      | some (Json.arr msgs) => (msgs.map fisExtractMsg).flatten
      | _ => []
  else []

/-- One chunk step of the fis.ts read loop (lines 136–192): split, keep
the last piece as the new buffer, process each complete line under that
buffer. -/
def fisFeed (buf chunk : List Char) : List Char × List (List Char) :=
  let pieces := splitNl (buf ++ chunk)
  (lastD pieces, (pieces.dropLast.map (fisProcessLine (lastD pieces))).flatten)

/-- Feeding a sequence of chunks one at a time through the fis.ts step. -/
def fisFeedList : List Char → List (List Char) → List Char × List (List Char)
  | buf, [] => (buf, [])
  | buf, c :: cs =>
    ((fisFeedList (fisFeed buf c).1 cs).1,
     (fisFeed buf c).2 ++ (fisFeedList (fisFeed buf c).1 cs).2)

/-- A valid upstream content line carrying the fragment `Hello`. -/
def helloLine : List Char :=
  String.toList
    ("data: \x7b\"messages\":[\x7b\"type\":\"ai\",\"content\":\"Hello\",\"tool_calls\":[]\x7d]\x7d")

/-- 4096 bytes of residual data with no newline. -/
def bigTail : List Char := List.replicate 4096 'x'

def c6chunk1 : List Char :=
  String.toList
    ("data: \x7b\"messages\":[\x7b\"type\":\"ai\",\"content\":\"Hello\",\"tool_calls\":[]\x7d]\x7d\n")

def c6chunk2 : List Char :=
  String.toList
    ("data: \x7b\"messages\":[\x7b\"type\":\"ai\",\"content\":\"\",\"tool_calls\":[]\x7d]\x7d\n")

def c6chunk3 : List Char := String.toList ("data: ping\n")

def preW : List Char := String.toList ("data: \x7b\"content\":\"A\"\x7d")

def tailW : List Char := String.toList ("data: \x7b\"content\":\"B\"\x7d")

/-- A sequence of newline-terminated lines as one logical stream. -/
def unlines (ls : List (List Char)) : List Char :=
  (ls.map (fun l => l ++ ['\n'])).flatten

/-- The lines the reassembler can extract from: `data: `-marked, with a
payload that opens a JSON object and decodes successfully.  All other
lines — no marker, non-JSON payload, truncated JSON, keep-alives — are
garbage in the sense of C5. -/
def validDataLine (l : List Char) : Bool :=
  dataMark.isPrefixOf (trimChars l) &&
  ((['\x7b'] : List Char).isPrefixOf (trimChars ((trimChars l).drop 6)) &&
   (parseJson (trimChars ((trimChars l).drop 6))).isSome)

def c5lines : List (List Char) :=
  [String.toList
     ("data: \x7b\"messages\":[\x7b\"type\":\"ai\",\"content\":\"Hello\",\"tool_calls\":[]\x7d]\x7d"),
   String.toList ("random noise without marker"),
   String.toList ("data: \x7b\"messages\":[\x7b\"typ"),
   String.toList ("data: not json at all"),
   String.toList ("data: ping"),
   String.toList
     ("data: \x7b\"messages\":[\x7b\"type\":\"ai\",\"content\":\"Bye\",\"tool_calls\":[]\x7d]\x7d")]

def c4fields : List (List Char × Json) :=
  [(String.toList ("type"), Json.str (String.toList ("ai"))),
   (String.toList ("content"), Json.str (String.toList ("Hello"))),
   (String.toList ("tool_calls"), Json.arr [Json.obj []])]

/-- Downstream events.  `errors` carries the single entry's message; the
entry's `type`/`code`/`identifier` fields are fixed constants in the
source (`"agent"`, `"PROCESSING_ERROR"`, `"processing_error"`). -/
inductive Ev : Type
  | ack : Ev
  | text (s : List Char) : Ev
  | errors (msg : List Char) : Ev
  | done : Ev
deriving DecidableEq

/-- One result of an `await reader.read()`: a data chunk, an empty read
(`done` still false), or a read rejection. -/
inductive ReadRes : Type
  | chunk (s : List Char) : ReadRes
  | empty : ReadRes
  | failRead : ReadRes
deriving DecidableEq

/-- Simulated upstream behavior for one request, as seen from inside the
streaming response handler: either some step before the read loop throws
(identity lookup, thread creation, run-open HTTP error, missing body, or
the five-minute abort — all reach the catch block with a message), or the
run opens and the reader yields the given sequence of read results
followed by the final `done: true` read. -/
inductive Upstream : Type
  | earlyFail (msg : List Char) : Upstream
  | streamReads (rs : List ReadRes) : Upstream

/-- The part_001 greeting (line 139). -/
def greet1 (login : List Char) : List Char :=
  String.toList ("Hi ") ++ login ++
  String.toList
    ("! 🤖\n\nStarting your request... This may take up to 3 minutes depending on the model complexity.\n\n")

/-- The fallback Text of part_000/part_001 (`\x27` is the apostrophe). -/
def fallbackMsg : List Char :=
  String.toList
    ("I received your request but couldn\x27t generate a proper response. Please try again.")

def maxEmptyReads : Nat := 50

/-- The part_001 read loop (lines 147–236), accumulating the pending
buffer, the `hasValidContent` flag and the consecutive-empty-read counter.
Returns the Text events written during streaming and the final flag.  The
end of the read list is the `done: true` read (break, line 151); an empty
read increments the counter and breaks once it reaches `maxEmptyReads`
(lines 156–176); a read rejection breaks via the inner catch (lines
232–235).  The inactivity keep-alive (lines 160–166) depends on
`Date.now()` and is modelled as not firing: it only writes additional
non-terminal Text events during streaming and resets the counter, and no
claim depends on wall-clock time. -/
def loop1 : List ReadRes → List Char → Bool → Nat → List Ev × Bool
  | [], _, hv, _ => ([], hv)
  | ReadRes.chunk s :: rest, buf, hv, _ =>
    (((feed buf s).2.map Ev.text) ++
       (loop1 rest (feed buf s).1 (hv || !(feed buf s).2.isEmpty) 0).1,
     (loop1 rest (feed buf s).1 (hv || !(feed buf s).2.isEmpty) 0).2)
  | ReadRes.empty :: rest, buf, hv, k =>
    if maxEmptyReads ≤ k + 1 then ([], hv) else loop1 rest buf hv (k + 1)
  | ReadRes.failRead :: _, _, hv, _ => ([], hv)

/-- The part_001 request handler from the first sink write on (lines
64–276): Ack, then on any pre-stream failure one Errors event (the catch
block); on an opened stream the greeting, the streamed Text events, the
fallback Text when `hasValidContent` is still false, and Done. -/
def handler1 : Upstream → List Char → List Ev
  | Upstream.earlyFail m, _ => [Ev.ack, Ev.errors m]
  | Upstream.streamReads rs, login =>
    [Ev.ack, Ev.text (greet1 login)] ++ (loop1 rs [] false 0).1 ++
    (if (loop1 rs [] false 0).2 then [] else [Ev.text fallbackMsg]) ++
    [Ev.done]

/-- The fis.ts greeting (line 134). -/
def fisGreet (login : List Char) : List Char :=
  String.toList ("Hi ") ++ login ++ String.toList ("! ")

/-- Representative message of a rejected `reader.read()` (the runtime
error text reaching the catch block). -/
def readFailMsg : List Char := String.toList ("stream read error")

/-- The fis.ts read loop (lines 136–192): no empty-read counter (an empty
read just loops) and no inner catch — a read rejection escapes to the
outer catch, reported by the Boolean of the result. -/
def fisLoop : List ReadRes → List Char → List Ev × Bool
  | [], _ => ([], false)
  | ReadRes.chunk s :: rest, buf =>
    (((fisFeed buf s).2.map Ev.text) ++ (fisLoop rest (fisFeed buf s).1).1,
     (fisLoop rest (fisFeed buf s).1).2)
  | ReadRes.empty :: rest, buf => fisLoop rest buf
  | ReadRes.failRead :: _, _ => ([], true)

/-- The fis.ts request handler (lines 63–211): Ack, greeting, streamed
Text events, then Done — or one Errors event when anything threw.  There
is no fallback branch in this revision. -/
def fisHandler : Upstream → List Char → List Ev
  | Upstream.earlyFail m, _ => [Ev.ack, Ev.errors m]
  | Upstream.streamReads rs, login =>
    [Ev.ack, Ev.text (fisGreet login)] ++ (fisLoop rs []).1 ++
    (if (fisLoop rs []).2 then [Ev.errors readFailMsg] else [Ev.done])

/-- The part_000 greeting (line 127). -/
def p0Greet (login : List Char) : List Char :=
  String.toList ("Hi ") ++ login ++ String.toList ("!\n\n")

/-- Fragments of one complete line in the part_000 revision (lines
145–173): `data: {` marker, decode, `messages` entries with the same
filter as part_001; no ping skip (subsumed by the brace test) and no
top-level `content` path. -/
def p0ProcessLine (line : List Char) : List (List Char) :=
  if (String.toList ("data: \x7b")).isPrefixOf (trimChars line) then
    match parseJson ((trimChars line).drop 6) with
    | none => []
    | some j =>
      match jGet j keyMessages with
      | some (Json.arr msgs) => (msgs.map extractMsg).flatten
      | _ => []
  else []

/-- One chunk step of the part_000 read loop (lines 137–175). -/
def p0Feed (buf chunk : List Char) : List Char × List (List Char) :=
  (lastD (splitNl (buf ++ chunk)),
   ((splitNl (buf ++ chunk)).dropLast.map p0ProcessLine).flatten)

/-- The message of the part_000 end-of-stream throw (line 133). -/
def p0CloseMsg : List Char :=
  String.toList ("LangGraph stream closed before any data was sent.")

/-- The part_000 read loop (lines 129–176).  The final `done: true` read
carries no value, so `if (!value && streamDone) throw` fires on every
stream end; a read rejection also escapes (no inner catch).  The third
component is the pending throw message, the second the
`hasValidContent` flag. -/
def p0Loop : List ReadRes → List Char → Bool →
    List Ev × Bool × Option (List Char)
  | [], _, hv => ([], hv, some p0CloseMsg)
  | ReadRes.chunk s :: rest, buf, hv =>
    (((p0Feed buf s).2.map Ev.text) ++
       (p0Loop rest (p0Feed buf s).1 (hv || !(p0Feed buf s).2.isEmpty)).1,
     (p0Loop rest (p0Feed buf s).1 (hv || !(p0Feed buf s).2.isEmpty)).2)
  | ReadRes.empty :: rest, buf, hv => p0Loop rest buf hv
  | ReadRes.failRead :: _, _, hv => ([], hv, some readFailMsg)

/-- The part_000 request handler (lines 61–198).  The fallback/Done arm is
transcribed but unreachable: the loop always ends in a throw. -/
def p0Handler : Upstream → List Char → List Ev
  | Upstream.earlyFail m, _ => [Ev.ack, Ev.errors m]
  | Upstream.streamReads rs, login =>
    [Ev.ack, Ev.text (p0Greet login)] ++ (p0Loop rs [] false).1 ++
    (match (p0Loop rs [] false).2.2 with
     | some m => [Ev.errors m]
     | none =>
       (if (p0Loop rs [] false).2.1 then [] else [Ev.text fallbackMsg]) ++
       [Ev.done])

def isTerminalEv : Ev → Bool
  | Ev.done => true
  | Ev.errors _ => true
  | _ => false

def isTextEv : Ev → Bool
  | Ev.text _ => true
  | _ => false

/-- Exactly one of Done/Errors appears, and it is the final event. -/
def exactlyOneTerminalLast (evs : List Ev) : Prop :=
  (evs.filter isTerminalEv).length = 1 ∧
  isTerminalEv (evs.getLastD Ev.ack) = true

def lastOr {α : Type} (d : α) : List α → α
  | [] => d
  | [x] => x
  | _ :: x :: xs => lastOr d (x :: xs)

/-- An upstream thread-creation response: HTTP success flag and body. -/
structure CreateResp : Type where
  ok : Bool
  body : List Char

def createFailMsg (body : List Char) : List Char :=
  String.toList ("Failed to create thread: ") ++ body

def missingThreadMsg : List Char :=
  String.toList ("Thread creation response missing thread_id")

/-- Representative message of a rejected `threadResponse.json()` (the
runtime text is environment-specific). -/
def jsonRejectMsg : List Char := String.toList ("Unexpected end of JSON input")

def keyThreadId : List Char := String.toList ("thread_id")

def keyId : List Char := String.toList ("id")

def keyUuid : List Char := String.toList ("uuid")

/-- The JS `a || b` on possibly-undefined values. -/
def jsOrVal (a b : Option Json) : Option Json :=
  match a with
  | none => b
  | some v => if jsFalsy v then b else some v

/-- `createConversation` — the thread-creation section of all three
revisions (part_001 lines 77–91): reject a non-ok response with a
descriptive message; parse the body (`.json()` rejecting on non-JSON);
take `threadData.thread_id || threadData.id || threadData.uuid`; reject
(`missing thread_id`) when the chain result is still falsy. -/
def createConversation (r : CreateResp) : Except (List Char) Json :=
  if r.ok = false then Except.error (createFailMsg r.body)
  else
    match parseJson r.body with
    | none => Except.error jsonRejectMsg
    | some j =>
      match jsOrVal (jsOrVal (jGet j keyThreadId) (jGet j keyId))
          (jGet j keyUuid) with
      | none => Except.error missingThreadMsg
      | some v =>
        if jsFalsy v then Except.error missingThreadMsg else Except.ok v

/-- The first candidate holding a truthy value. -/
def firstTruthy : List (Option Json) → Option Json
  | [] => none
  | none :: rest => firstTruthy rest
  | some v :: rest => if jsFalsy v then firstTruthy rest else some v

/-- The first *truthy* handle field, in the fixed priority order. -/
def firstTruthyHandleField (j : Json) : Option Json :=
  firstTruthy [jGet j keyThreadId, jGet j keyId, jGet j keyUuid]

/-- Modelled from the claim's words (refinement comparison only): the
handle taken from the first *present* field in the priority order
`thread_id`, `id`, `uuid`, whatever its value. -/
def firstPresentHandleField (j : Json) : Option Json :=
  match jGet j keyThreadId with
  | some v => some v
  | none =>
    match jGet j keyId with
    | some v => some v
    | none => jGet j keyUuid

def c8body : List Char := String.toList ("\x7b\"thread_id\":\"T1\"\x7d")

def c8json : Json :=
  Json.obj [(String.toList ("thread_id"), Json.str (String.toList ("T1")))]

def c8cexBody : List Char := String.toList ("\x7b\"thread_id\":\"\",\"id\":\"B\"\x7d")

/-- The observable state of the session directory and of the instrumented
upstream client across requests: the `userThreads` map, how many
conversation-creation calls were issued, and the handles passed to the
run-open calls, in order. -/
structure BridgeState : Type where
  userThreads : List (List Char × Json)
  createCalls : Nat
  openCalls : List Json

def emptyBridgeState : BridgeState := ⟨[], 0, []⟩

/-- `userThreads.set login v` (last write wins). -/
def mapSet (m : List (List Char × Json)) (k : List Char) (v : Json) :
    List (List Char × Json) :=
  (k, v) :: m.filter (fun p => p.1 != k)

/-- The cold path of the session lookup (part_001 lines 76–93): call the
upstream creation, store the handle, return it; on failure propagate and
leave the directory unmodified. -/
def resolveCold (st : BridgeState) (login : List Char) (resp : CreateResp) :
    Except (List Char) (Json × BridgeState) :=
  match createConversation resp with
  | Except.error e => Except.error e
  | Except.ok h =>
    Except.ok (h, ⟨mapSet st.userThreads login h, st.createCalls + 1,
      st.openCalls⟩)

/-- `let threadId = userThreads.get(userLogin); if (!threadId) {...}`
(part_001 lines 75–93): a missing or falsy stored value takes the cold
path, a truthy stored value is returned with no upstream call. -/
def resolveThread (st : BridgeState) (login : List Char) (resp : CreateResp) :
    Except (List Char) (Json × BridgeState) :=
  match List.lookup login st.userThreads with
  | some t =>
    if jsFalsy t then resolveCold st login resp else Except.ok (t, st)
  | none => resolveCold st login resp

/-- One request's session work: resolve the thread, then open one
streaming run against the resolved handle. -/
def doRequest (st : BridgeState) (login : List Char) (resp : CreateResp) :
    Except (List Char) BridgeState :=
  match resolveThread st login resp with
  | Except.error e => Except.error e
  | Except.ok (h, st2) =>
    Except.ok ⟨st2.userThreads, st2.createCalls, st2.openCalls ++ [h]⟩

/-- Two sequential requests starting from the empty directory. -/
def twoRequests (l1 : List Char) (r1 : CreateResp) (l2 : List Char)
    (r2 : CreateResp) : Except (List Char) BridgeState :=
  match doRequest emptyBridgeState l1 r1 with
  | Except.error e => Except.error e
  | Except.ok st => doRequest st l2 r2

theorem splitNl_nil : splitNl [] = [[]] := rfl

theorem splitNl_cons_nl (rest : List Char) :
    splitNl ('\n' :: rest) = [] :: splitNl rest := by
  simp [splitNl]

theorem splitNl_cons_ne {c : Char} (hc : c ≠ '\n') (rest : List Char) :
    splitNl (c :: rest) = (c :: (splitNl rest).headI) :: (splitNl rest).tail := by
  simp [splitNl, hc]

theorem splitNl_ne_nil (s : List Char) : splitNl s ≠ [] := by
  cases s with
  | nil => simp [splitNl]
  | cons c rest =>
    by_cases hc : c = '\n'
    · subst hc; rw [splitNl_cons_nl]; simp
    · rw [splitNl_cons_ne hc]; simp

theorem lastD_cons_of_ne_nil (x : List Char) {xs : List (List Char)}
    (h : xs ≠ []) : lastD (x :: xs) = lastD xs := by
  cases xs with
  | nil => exact absurd rfl h
  | cons y ys => rfl

theorem lastD_concat (xs : List (List Char)) (a : List Char) :
    lastD (xs ++ [a]) = a := by
  induction xs with
  | nil => rfl
  | cons x xs ih =>
    rw [List.cons_append, lastD_cons_of_ne_nil x (by simp), ih]

theorem dropLast_append_ne_nil {α : Type} (xs : List α) {ys : List α}
    (h : ys ≠ []) : (xs ++ ys).dropLast = xs ++ ys.dropLast := by
  induction xs with
  | nil => rfl
  | cons a xs ih =>
    rw [List.cons_append, List.dropLast_cons_of_ne_nil (by simp [h]),
      ih, List.cons_append]

theorem splitNl_of_not_mem_nl {s : List Char} (h : '\n' ∉ s) :
    splitNl s = [s] := by
  induction s with
  | nil => rfl
  | cons c rest ih =>
    simp only [List.mem_cons, not_or] at h
    rw [splitNl_cons_ne (fun hc => h.1 hc.symm), ih h.2]
    simp [List.headI]

/-- A complete line followed by a newline splits off in front. -/
theorem splitNl_line {l : List Char} (h : '\n' ∉ l) (y : List Char) :
    splitNl (l ++ '\n' :: y) = l :: splitNl y := by
  induction l with
  | nil => simp [splitNl_cons_nl]
  | cons c rest ih =>
    simp only [List.mem_cons, not_or] at h
    rw [List.cons_append, splitNl_cons_ne (fun hc => h.1 hc.symm), ih h.2]
    simp [List.headI]

theorem headI_cons {α : Type} [Inhabited α] (a : α) (l : List α) :
    (a :: l).headI = a := rfl

theorem lastD_eq_getLast (xs : List (List Char)) (h : xs ≠ []) :
    lastD xs = xs.getLast h := by
  match xs with
  | [r] => rfl
  | r :: b :: bs =>
    rw [lastD_cons_of_ne_nil r (by simp), List.getLast_cons (by simp)]
    exact lastD_eq_getLast (b :: bs) (by simp)

/-- How splitting acts on a concatenation: the last (incomplete) piece of
the first part fuses with the first piece of the second part. -/
theorem splitNl_append (x y : List Char) :
    splitNl (x ++ y) =
      (splitNl x).dropLast ++ splitNl (lastD (splitNl x) ++ y) := by
  induction x with
  | nil => simp [splitNl_nil, lastD]
  | cons c rest ih =>
    by_cases hc : c = '\n'
    · subst hc
      rw [List.cons_append, splitNl_cons_nl, splitNl_cons_nl, ih,
        List.dropLast_cons_of_ne_nil (splitNl_ne_nil rest),
        lastD_cons_of_ne_nil [] (splitNl_ne_nil rest), List.cons_append]
    · rw [List.cons_append, splitNl_cons_ne hc, splitNl_cons_ne hc]
      match hrest : splitNl rest with
      | [] => exact absurd hrest (splitNl_ne_nil rest)
      | [r] =>
        rw [hrest] at ih
        simp only [lastD, List.dropLast_single, List.nil_append] at ih
        rw [headI_cons, List.tail_cons, List.dropLast_single,
          List.nil_append,
          show lastD [c :: r] = c :: r from rfl, List.cons_append,
          splitNl_cons_ne hc, ih]
      | r :: b :: bs =>
        rw [hrest] at ih
        rw [List.dropLast_cons_of_ne_nil (l := b :: bs) (by simp),
          lastD_cons_of_ne_nil r (by simp), List.cons_append] at ih
        rw [headI_cons, List.tail_cons,
          List.dropLast_cons_of_ne_nil (l := b :: bs) (by simp),
          lastD_cons_of_ne_nil (c :: r) (by simp), ih, headI_cons,
          List.tail_cons, List.cons_append]

/-- No piece produced by `splitNl` contains a newline. -/
theorem splitNl_pieces_no_nl (s : List Char) :
    ∀ p ∈ splitNl s, '\n' ∉ p := by
  induction s with
  | nil => simp [splitNl_nil]
  | cons c rest ih =>
    by_cases hc : c = '\n'
    · subst hc
      rw [splitNl_cons_nl]
      intro p hp
      rcases List.mem_cons.mp hp with h | h
      · simp [h]
      · exact ih p h
    · rw [splitNl_cons_ne hc]
      match hrest : splitNl rest with
      | [] => exact absurd hrest (splitNl_ne_nil rest)
      | r :: rs =>
        rw [hrest] at ih
        rw [headI_cons, List.tail_cons]
        intro p hp
        rcases List.mem_cons.mp hp with h | h
        · subst h
          intro hmem
          rcases List.mem_cons.mp hmem with h2 | h2
          · exact hc h2.symm
          · exact ih r (List.mem_cons_self r rs) h2
        · exact ih p (List.mem_cons_of_mem r h)

theorem lastD_mem {xs : List (List Char)} (h : xs ≠ []) : lastD xs ∈ xs := by
  rw [lastD_eq_getLast xs h]
  exact List.getLast_mem h

/-- The residual piece never contains a newline. -/
theorem lastD_splitNl_no_nl (s : List Char) : '\n' ∉ lastD (splitNl s) := by
  exact splitNl_pieces_no_nl s _ (lastD_mem (splitNl_ne_nil s))

theorem dropLast_lastD_append :
    ∀ (xs : List (List Char)), xs ≠ [] → ∀ z : List (List Char),
      xs.dropLast ++ lastD xs :: z = xs ++ z
  | [x], _, z => rfl
  | x :: y :: ys, _, z => by
    rw [List.dropLast_cons_of_ne_nil (by simp),
      lastD_cons_of_ne_nil x (by simp), List.cons_append,
      dropLast_lastD_append (y :: ys) (by simp) z]
    simp

/-- A stream ending in a newline splits into its lines plus a final empty
residual piece. -/
theorem splitNl_concat_nl (x : List Char) :
    splitNl (x ++ ['\n']) = splitNl x ++ [[]] := by
  rw [splitNl_append, splitNl_line (lastD_splitNl_no_nl x) [], splitNl_nil,
    dropLast_lastD_append _ (splitNl_ne_nil x)]

theorem lastD_append_ne_nil (xs : List (List Char)) {ys : List (List Char)}
    (h : ys ≠ []) : lastD (xs ++ ys) = lastD ys := by
  induction xs with
  | nil => rfl
  | cons x xs ih =>
    rw [List.cons_append, lastD_cons_of_ne_nil x (by simp [h]), ih]

/-- Feeding the concatenation of two chunks behaves as feeding them one
after the other: the split of the combined text is the completed lines of
the first step followed by the split of the carried-over buffer plus the
second chunk. -/
theorem feed_append (buf a b : List Char) :
    feed buf (a ++ b) =
      ((feed (feed buf a).1 b).1, (feed buf a).2 ++ (feed (feed buf a).1 b).2) := by
  unfold feed
  simp only
  rw [← List.append_assoc, splitNl_append (buf ++ a) b]
  have hne := splitNl_ne_nil (lastD (splitNl (buf ++ a)) ++ b)
  rw [lastD_append_ne_nil _ hne, dropLast_append_ne_nil _ hne,
    List.map_append, List.flatten_append]

/-- Feeding chunks one at a time equals feeding their concatenation, for
any newline-free starting buffer (the pending buffer is always
newline-free). -/
theorem feedList_eq_feed_flatten :
    ∀ (chunks : List (List Char)) (buf : List Char), '\n' ∉ buf →
      feedList buf chunks = feed buf chunks.flatten
  | [], buf, h => by
    unfold feedList feed
    rw [List.flatten_nil, List.append_nil, splitNl_of_not_mem_nl h]
    rfl
  | c :: cs, buf, h => by
    rw [List.flatten_cons, feed_append]
    unfold feedList
    rw [feedList_eq_feed_flatten cs (feed buf c).1
      (by unfold feed; exact lastD_splitNl_no_nl _)]

theorem bigTail_no_nl : '\n' ∉ bigTail :=
  fun hm => absurd (List.eq_of_mem_replicate hm) (by decide)

theorem helloLine_no_nl : '\n' ∉ helloLine := by decide

theorem bigTail_length : bigTail.length = 4096 := by
  unfold bigTail
  exact List.length_replicate 4096 'x'

theorem fisFeed_chunk1 :
    fisFeed [] (helloLine ++ ['\n']) = ([], [String.toList ("Hello")]) := by
  decide

theorem fisFeed_chunk2 : fisFeed [] bigTail = (bigTail, []) := by
  unfold fisFeed
  rw [List.nil_append, splitNl_of_not_mem_nl bigTail_no_nl]
  rfl

theorem fisProcessLine_blocked : fisProcessLine bigTail helloLine = [] := by
  unfold fisProcessLine
  rw [show trimChars helloLine = helloLine from by decide]
  rw [if_neg (by decide :
    ¬(String.toList ("event: values")).isPrefixOf helloLine = true)]
  rw [if_neg ?hguard]
  case hguard =>
    intro hand
    rw [bigTail_length] at hand
    exact absurd hand.2 (by decide)

theorem fisFeed_whole :
    fisFeed [] (helloLine ++ '\n' :: bigTail) = (bigTail, []) := by
  unfold fisFeed
  rw [List.nil_append, splitNl_line helloLine_no_nl,
    splitNl_of_not_mem_nl bigTail_no_nl]
  show (bigTail, (List.map (fisProcessLine bigTail) [helloLine]).flatten)
      = (bigTail, [])
  rw [List.map_cons, List.map_nil, fisProcessLine_blocked]
  rfl

theorem fisFeedList_split :
    fisFeedList [] [helloLine ++ ['\n'], bigTail]
      = (bigTail, [String.toList ("Hello")]) := by
  simp only [fisFeedList]
  rw [fisFeed_chunk1]
  dsimp only
  rw [fisFeed_chunk2]
  rfl

theorem fisFeedList_whole :
    fisFeedList [] [helloLine ++ '\n' :: bigTail] = (bigTail, []) := by
  simp only [fisFeedList]
  rw [fisFeed_whole]
  rfl

/-- C1 is false of the fis.ts revision of the read loop: the same logical
stream — the `Hello` data line, a newline, then 4096 buffered bytes —
yields the fragment `Hello` when fed as two chunks split after the
newline, but yields no fragment when fed as one chunk, because the
`buffer.length < 4096` guard (fis.ts line 170) then suppresses the line. -/
theorem c1_counterexample :
    ((helloLine ++ ['\n']) ++ bigTail = helloLine ++ '\n' :: bigTail) ∧
    (fisFeedList [] [helloLine ++ ['\n'], bigTail]).2
      = [String.toList ("Hello")] ∧
    (fisFeedList [] [helloLine ++ '\n' :: bigTail]).2 = [] := by
  refine ⟨by simp, ?_, ?_⟩
  · rw [fisFeedList_split]
  · rw [fisFeedList_whole]

/-- C1 (amended): chunk-boundary invariance holds for the revisions whose
per-line processing depends only on the line (part_000/part_001; proved
here for the part_001 feed step): feeding any chunking of a logical stream
through the line-buffering feed step yields the same final buffer and the
same ordered fragment sequence as feeding the concatenated stream as one
chunk.  (In the fis.ts revision the `buffer.length < 4096` guard breaks
this; see the counterexample.) -/
theorem c1_amended_chunk_invariance (chunks : List (List Char)) :
    feedList [] chunks = feed [] chunks.flatten :=
  feedList_eq_feed_flatten chunks [] (by simp)

/-- C6: feeding the `Hello` record line, then the empty-content record
line, then `data: ping` through the reassembler yields exactly the
fragment sequence `["Hello"]`; the empty-content entry and the non-JSON
`data: ping` line contribute nothing.  Shown for the part_001 feed step
and for the fis.ts feed step. -/
theorem c6_concrete_scenario :
    (feedList [] [c6chunk1, c6chunk2, c6chunk3]).2 = [String.toList ("Hello")]
    ∧ (fisFeedList [] [c6chunk1, c6chunk2, c6chunk3]).2
        = [String.toList ("Hello")] := by
  constructor
  · decide
  · decide

/-- C9: content that reaches the reassembler after the final newline of
the stream is silently dropped — it stays in the residual buffer, which is
never parsed or flushed when the read loop ends.  First conjunct: an
unterminated final segment contributes no fragment (whatever it is, in
particular a `data: ...` record).  Second conjunct: a stream with no
newline at all produces no fragments. -/
theorem c9_unterminated_tail_dropped :
    (∀ pre t : List Char, '\n' ∉ t →
      (feed [] (pre ++ '\n' :: t)).2 = (feed [] (pre ++ ['\n'])).2) ∧
    (∀ t : List Char, '\n' ∉ t → (feed [] t).2 = []) := by
  constructor
  · intro pre t ht
    unfold feed
    rw [List.nil_append, List.nil_append,
      show pre ++ '\n' :: t = (pre ++ ['\n']) ++ t from by simp,
      splitNl_append (pre ++ ['\n']) t, splitNl_concat_nl, lastD_concat,
      List.nil_append, splitNl_of_not_mem_nl ht]
    simp only [List.dropLast_concat]
  · intro t ht
    unfold feed
    rw [List.nil_append, splitNl_of_not_mem_nl ht]
    rfl

/-- Witness for C9 at a concrete input: a terminated `A` record followed
by an unterminated `B` record yields the same fragments as the terminated
record alone, and the unterminated record alone yields nothing. -/
theorem c9_witness :
    ('\n' ∉ tailW) ∧
    (feed [] (preW ++ '\n' :: tailW)).2 = (feed [] (preW ++ ['\n'])).2 ∧
    (feed [] tailW).2 = [] :=
  ⟨by decide, c9_unterminated_tail_dropped.1 preW tailW (by decide),
   c9_unterminated_tail_dropped.2 tailW (by decide)⟩

theorem splitNl_unlines {ls : List (List Char)} (h : ∀ l ∈ ls, '\n' ∉ l) :
    splitNl (unlines ls) = ls ++ [[]] := by
  induction ls with
  | nil => rfl
  | cons l ls ih =>
    unfold unlines
    rw [List.map_cons, List.flatten_cons, List.append_assoc,
      List.singleton_append, splitNl_line (h l (List.mem_cons_self l ls))]
    rw [show ((ls.map (fun l => l ++ ['\n'])).flatten : List Char)
        = unlines ls from rfl,
      ih (fun x hx => h x (List.mem_cons_of_mem l hx)), List.cons_append]

/-- A line that is not a valid data line contributes no fragments: every
failing check in the line processor lands in a branch returning `[]`, and
in particular a decode failure is contained in that line. -/
theorem processLine_eq_nil_of_not_valid {l : List Char}
    (h : validDataLine l = false) : processLine l = [] := by
  unfold processLine
  by_cases ht : trimChars l = []
  · rw [if_pos ht]
  · rw [if_neg ht]
    by_cases hp : dataMark.isPrefixOf (trimChars l) = true
    · rw [if_pos hp]
      by_cases hd : trimChars ((trimChars l).drop 6) = [] ∨
          trimChars ((trimChars l).drop 6) = pingTok
      · rw [if_pos hd]
      · rw [if_neg hd]
        by_cases hb : (['\x7b'] : List Char).isPrefixOf
            (trimChars ((trimChars l).drop 6)) = true
        · rw [if_pos hb]
          unfold validDataLine at h
          rw [hp, hb, Bool.true_and, Bool.true_and] at h
          have hnone : parseJson (trimChars (List.drop 6 (trimChars l)))
              = none := Option.not_isSome_iff_eq_none.mp (by simp [h])
          rw [hnone]
        · rw [if_neg (by simpa using hb)]
    · rw [if_neg (by simpa using hp)]

theorem flatten_map_filter_of_nil {α : Type} (p : α → Bool)
    (f : α → List (List Char)) :
    ∀ ls : List α, (∀ a ∈ ls, p a = false → f a = []) →
      ((ls.filter p).map f).flatten = (ls.map f).flatten := by
  intro ls
  induction ls with
  | nil => intro _; rfl
  | cons a ls ih =>
    intro h
    by_cases hp : p a = true
    · rw [List.filter_cons_of_pos hp, List.map_cons, List.map_cons,
        List.flatten_cons, List.flatten_cons,
        ih (fun x hx => h x (List.mem_cons_of_mem a hx))]
    · rw [List.filter_cons_of_neg (by simpa using hp), List.map_cons,
        List.flatten_cons, h a (List.mem_cons_self a ls) (by simpa using hp),
        List.nil_append, ih (fun x hx => h x (List.mem_cons_of_mem a hx))]

/-- C5: a stream interleaving valid `data: {...}` lines with garbage lines
yields exactly the fragments of the valid lines, in stream order; a
malformed line contributes nothing and, the line processor being total,
no decode failure escapes the reassembler or terminates the stream. -/
theorem c5_malformed_line_tolerance (ls : List (List Char))
    (h : ∀ l ∈ ls, '\n' ∉ l) :
    (feed [] (unlines ls)).2
      = ((ls.filter validDataLine).map processLine).flatten ∧
    ∀ l ∈ ls, validDataLine l = false → processLine l = [] := by
  constructor
  · unfold feed
    rw [List.nil_append, splitNl_unlines h, List.dropLast_concat,
      flatten_map_filter_of_nil validDataLine processLine ls
        (fun a _ ha => processLine_eq_nil_of_not_valid ha)]
  · exact fun l _ hl => processLine_eq_nil_of_not_valid hl

/-- Witness for C5 at a concrete mixed stream: two valid lines among a
marker-less line, a truncated-JSON line, a non-JSON payload and a
keep-alive; the output is exactly the two valid fragments, in order. -/
theorem c5_witness :
    (∀ l ∈ c5lines, '\n' ∉ l) ∧
    ((feed [] (unlines c5lines)).2
        = ((c5lines.filter validDataLine).map processLine).flatten ∧
     ∀ l ∈ c5lines, validDataLine l = false → processLine l = []) ∧
    (feed [] (unlines c5lines)).2
      = [String.toList ("Hello"), String.toList ("Bye")] :=
  ⟨by decide, c5_malformed_line_tolerance c5lines (by decide), by decide⟩

/-- C4: a message entry whose `tool_calls` list is non-empty produces zero
fragments, whatever its `content` — the `(!msg.tool_calls ||
msg.tool_calls.length === 0)` conjunct fails on a non-empty array, so the
entry is suppressed. -/
theorem c4_tool_call_suppression (fields : List (List Char × Json))
    (v : Json) (vs : List Json)
    (h : jsLookup fields keyToolCalls
      = some (Json.arr (v :: vs))) :
    extractMsg (Json.obj fields) = [] := by
  have htc : toolCallsAbsentOrEmpty (some (Json.arr (v :: vs))) = false := rfl
  cases hty : jsLookup fields keyType with
  | none => simp [extractMsg, hty]
  | some jty =>
    cases hco : jsLookup fields keyContent with
    | none => cases jty <;> simp [extractMsg, hty, hco]
    | some jco =>
      cases jty <;> cases jco <;> simp [extractMsg, hty, hco, h, htc]

/-- Witness for C4 at a concrete entry: role `ai`, non-empty content
`Hello`, and one pending tool call — the entry yields no fragment. -/
theorem c4_witness :
    jsLookup c4fields keyToolCalls
      = some (Json.arr [Json.obj []]) ∧
    extractMsg (Json.obj c4fields) = [] :=
  ⟨rfl, c4_tool_call_suppression c4fields (Json.obj []) [] rfl⟩

theorem lastOr_cons_of_ne_nil {α : Type} (d : α) (x : α) {xs : List α}
    (h : xs ≠ []) : lastOr d (x :: xs) = lastOr d xs := by
  cases xs with
  | nil => exact absurd rfl h
  | cons y ys => rfl

theorem lastOr_append_ne_nil {α : Type} (d : α) (xs : List α) {ys : List α}
    (h : ys ≠ []) : lastOr d (xs ++ ys) = lastOr d ys := by
  induction xs with
  | nil => rfl
  | cons x xs ih =>
    rw [List.cons_append, lastOr_cons_of_ne_nil d x (by simp [h]), ih]

theorem filter_terminal_of_text {evs : List Ev}
    (h : ∀ e ∈ evs, ∃ s, e = Ev.text s) : evs.filter isTerminalEv = [] := by
  induction evs with
  | nil => rfl
  | cons e evs ih =>
    obtain ⟨s, hs⟩ := h e (List.mem_cons_self e evs)
    subst hs
    rw [List.filter_cons_of_neg (by simp [isTerminalEv])]
    exact ih (fun x hx => h x (List.mem_cons_of_mem _ hx))

theorem loop1_events_text :
    ∀ (rs : List ReadRes) (buf : List Char) (hv : Bool) (k : Nat),
      ∀ e ∈ (loop1 rs buf hv k).1, ∃ s, e = Ev.text s
  | [], _, _, _ => by simp [loop1]
  | ReadRes.chunk s :: rest, buf, hv, k => by
    simp only [loop1]
    intro e he
    rcases List.mem_append.mp he with h | h
    · obtain ⟨f, _, hf⟩ := List.mem_map.mp h
      exact ⟨f, hf.symm⟩
    · exact loop1_events_text rest _ _ 0 e h
  | ReadRes.empty :: rest, buf, hv, k => by
    simp only [loop1]
    by_cases hk : maxEmptyReads ≤ k + 1
    · rw [if_pos hk]; simp
    · rw [if_neg hk]; exact loop1_events_text rest buf hv (k + 1)
  | ReadRes.failRead :: rest, buf, hv, k => by simp [loop1]

theorem fisLoop_events_text :
    ∀ (rs : List ReadRes) (buf : List Char),
      ∀ e ∈ (fisLoop rs buf).1, ∃ s, e = Ev.text s
  | [], _ => by simp [fisLoop]
  | ReadRes.chunk s :: rest, buf => by
    simp only [fisLoop]
    intro e he
    rcases List.mem_append.mp he with h | h
    · obtain ⟨f, _, hf⟩ := List.mem_map.mp h
      exact ⟨f, hf.symm⟩
    · exact fisLoop_events_text rest _ e h
  | ReadRes.empty :: rest, buf => by
    simp only [fisLoop]
    exact fisLoop_events_text rest buf
  | ReadRes.failRead :: rest, buf => by simp [fisLoop]

theorem p0Loop_events_text :
    ∀ (rs : List ReadRes) (buf : List Char) (hv : Bool),
      ∀ e ∈ (p0Loop rs buf hv).1, ∃ s, e = Ev.text s
  | [], _, _ => by simp [p0Loop]
  | ReadRes.chunk s :: rest, buf, hv => by
    simp only [p0Loop]
    intro e he
    rcases List.mem_append.mp he with h | h
    · obtain ⟨f, _, hf⟩ := List.mem_map.mp h
      exact ⟨f, hf.symm⟩
    · exact p0Loop_events_text rest _ _ e h
  | ReadRes.empty :: rest, buf, hv => by
    simp only [p0Loop]
    exact p0Loop_events_text rest buf hv
  | ReadRes.failRead :: rest, buf, hv => by simp [p0Loop]

theorem lastOr_default_irrel {α : Type} (d d' : α) :
    ∀ xs : List α, xs ≠ [] → lastOr d xs = lastOr d' xs
  | [x], _ => rfl
  | x :: y :: ys, _ => by
    rw [lastOr_cons_of_ne_nil d x (by simp), lastOr_cons_of_ne_nil d' x (by simp)]
    exact lastOr_default_irrel d d' (y :: ys) (by simp)

theorem getLastD_eq_lastOr {α : Type} (d : α) :
    ∀ l : List α, l.getLastD d = lastOr d l
  | [] => rfl
  | [x] => rfl
  | x :: y :: ys => by
    rw [List.getLastD_cons, lastOr_cons_of_ne_nil d x (by simp),
      getLastD_eq_lastOr x (y :: ys)]
    exact lastOr_default_irrel x d (y :: ys) (by simp)

/-- The common shape of every terminated event sequence: Ack, greeting,
Text events, one terminal. -/
theorem oneTerminal_shape (g : List Char) (L : List Ev) (t : Ev)
    (hL : ∀ e ∈ L, ∃ s, e = Ev.text s) (ht : isTerminalEv t = true) :
    exactlyOneTerminalLast ([Ev.ack, Ev.text g] ++ L ++ [t]) := by
  unfold exactlyOneTerminalLast
  constructor
  · rw [List.filter_append, List.filter_append,
      filter_terminal_of_text hL,
      show List.filter isTerminalEv [Ev.ack, Ev.text g] = [] from rfl,
      List.filter_cons_of_pos ht]
    rfl
  · rw [getLastD_eq_lastOr Ev.ack,
      lastOr_append_ne_nil Ev.ack _ (show [t] ≠ ([] : List Ev) by simp)]
    exact ht

/-- C2: for every simulated upstream behavior — pre-stream failure
(HTTP error, missing body, timeout abort) or an opened stream with any
sequence of data chunks, empty reads and read rejections (covering the
empty stream and heartbeat-only streams) — each of the three revisions'
handlers writes exactly one of Done/Errors, as the final event, with
nothing after it. -/
theorem c2_exactly_one_terminal (u : Upstream) (login : List Char) :
    exactlyOneTerminalLast (handler1 u login) ∧
    exactlyOneTerminalLast (fisHandler u login) ∧
    exactlyOneTerminalLast (p0Handler u login) := by
  cases u with
  | earlyFail m => exact ⟨⟨rfl, rfl⟩, ⟨rfl, rfl⟩, ⟨rfl, rfl⟩⟩
  | streamReads rs =>
    refine ⟨?_, ?_, ?_⟩
    · have hAB : ∀ e ∈ (loop1 rs [] false 0).1 ++
          (if (loop1 rs [] false 0).2 then [] else [Ev.text fallbackMsg]),
          ∃ s, e = Ev.text s := by
        intro e he
        rcases List.mem_append.mp he with h | h
        · exact loop1_events_text rs [] false 0 e h
        · by_cases hb : (loop1 rs [] false 0).2
          · rw [if_pos hb] at h
            exact absurd h (List.not_mem_nil e)
          · rw [if_neg hb] at h
            rcases List.mem_singleton.mp h with rfl
            exact ⟨fallbackMsg, rfl⟩
      have heq : handler1 (Upstream.streamReads rs) login
          = [Ev.ack, Ev.text (greet1 login)] ++
            ((loop1 rs [] false 0).1 ++
             (if (loop1 rs [] false 0).2 then [] else [Ev.text fallbackMsg]))
            ++ [Ev.done] := by
        simp [handler1, List.append_assoc]
      rw [heq]
      exact oneTerminal_shape (greet1 login) _ Ev.done hAB rfl
    · by_cases hb : (fisLoop rs []).2
      · have heq : fisHandler (Upstream.streamReads rs) login
            = [Ev.ack, Ev.text (fisGreet login)] ++ (fisLoop rs []).1 ++
              [Ev.errors readFailMsg] := by
          simp [fisHandler, hb]
        rw [heq]
        exact oneTerminal_shape (fisGreet login) _ (Ev.errors readFailMsg)
          (fisLoop_events_text rs []) rfl
      · have heq : fisHandler (Upstream.streamReads rs) login
            = [Ev.ack, Ev.text (fisGreet login)] ++ (fisLoop rs []).1 ++
              [Ev.done] := by
          simp [fisHandler, hb]
        rw [heq]
        exact oneTerminal_shape (fisGreet login) _ Ev.done
          (fisLoop_events_text rs []) rfl
    · cases hm : (p0Loop rs [] false).2.2 with
      | some m =>
        have heq : p0Handler (Upstream.streamReads rs) login
            = [Ev.ack, Ev.text (p0Greet login)] ++ (p0Loop rs [] false).1 ++
              [Ev.errors m] := by
          simp [p0Handler, hm]
        rw [heq]
        exact oneTerminal_shape (p0Greet login) _ (Ev.errors m)
          (p0Loop_events_text rs [] false) rfl
      | none =>
        have hAB : ∀ e ∈ (p0Loop rs [] false).1 ++
            (if (p0Loop rs [] false).2.1 then [] else [Ev.text fallbackMsg]),
            ∃ s, e = Ev.text s := by
          intro e he
          rcases List.mem_append.mp he with h | h
          · exact p0Loop_events_text rs [] false e h
          · by_cases hb : (p0Loop rs [] false).2.1
            · rw [if_pos hb] at h
              exact absurd h (List.not_mem_nil e)
            · rw [if_neg hb] at h
              rcases List.mem_singleton.mp h with rfl
              exact ⟨fallbackMsg, rfl⟩
        have heq : p0Handler (Upstream.streamReads rs) login
            = [Ev.ack, Ev.text (p0Greet login)] ++
              ((p0Loop rs [] false).1 ++
               (if (p0Loop rs [] false).2.1 then [] else [Ev.text fallbackMsg]))
              ++ [Ev.done] := by
          simp [p0Handler, hm, List.append_assoc]
        rw [heq]
        exact oneTerminal_shape (p0Greet login) _ Ev.done hAB rfl

/-- If the `hasValidContent` flag is still false when the loop ends, it
was false on entry and the loop wrote nothing. -/
theorem loop1_hv_false :
    ∀ (rs : List ReadRes) (buf : List Char) (hv : Bool) (k : Nat),
      (loop1 rs buf hv k).2 = false → hv = false ∧ (loop1 rs buf hv k).1 = []
  | [], _, hv, _ => fun h => ⟨h, rfl⟩
  | ReadRes.chunk s :: rest, buf, hv, k => by
    intro h
    simp only [loop1] at h ⊢
    obtain ⟨hor, hrest⟩ :=
      loop1_hv_false rest (feed buf s).1 (hv || !(feed buf s).2.isEmpty) 0 h
    rcases Bool.or_eq_false_iff.mp hor with ⟨hv0, hfr⟩
    refine ⟨hv0, ?_⟩
    rw [hrest, List.append_nil, List.map_eq_nil_iff]
    simpa using hfr
  | ReadRes.empty :: rest, buf, hv, k => by
    intro h
    simp only [loop1] at h ⊢
    by_cases hk : maxEmptyReads ≤ k + 1
    · rw [if_pos hk] at h ⊢
      exact ⟨h, rfl⟩
    · rw [if_neg hk] at h ⊢
      exact loop1_hv_false rest buf hv (k + 1) h
  | ReadRes.failRead :: rest, buf, hv, k => fun h => ⟨h, rfl⟩

/-- C3 (amended): in the part_001 revision — the revision whose read loop
reaches the finalization block — every upstream stream that completes
without extracting any fragment gets exactly one non-empty fallback Text
event, written after the greeting and before Done.  (The fis.ts revision
has no fallback branch at all: see the counterexample.  In the part_000
revision the fallback is dead code, since its read loop throws at every
stream end.) -/
theorem c3_amended_fallback (login : List Char) (rs : List ReadRes)
    (h : (loop1 rs [] false 0).2 = false) :
    handler1 (Upstream.streamReads rs) login
      = [Ev.ack, Ev.text (greet1 login), Ev.text fallbackMsg, Ev.done] ∧
    fallbackMsg ≠ [] := by
  obtain ⟨-, hnil⟩ := loop1_hv_false rs [] false 0 h
  constructor
  · simp [handler1, hnil, h]
  · decide

/-- Witness for C3 (amended): the empty upstream stream. -/
theorem c3_witness :
    ((loop1 ([] : List ReadRes) [] false 0).2 = false) ∧
    (handler1 (Upstream.streamReads []) (String.toList ("octocat"))
        = [Ev.ack, Ev.text (greet1 (String.toList ("octocat"))),
           Ev.text fallbackMsg, Ev.done] ∧
     fallbackMsg ≠ []) :=
  ⟨rfl, c3_amended_fallback (String.toList ("octocat")) [] rfl⟩

/-- C3 is false of the fis.ts revision: the empty upstream stream
completes normally (the loop ends unaborted having written nothing), yet
the handler writes no fallback Text between the greeting and Done — the
claim's "exactly one non-empty fallback Text event" does not exist in this
revision. -/
theorem c3_counterexample :
    fisHandler (Upstream.streamReads []) (String.toList ("octocat"))
      = [Ev.ack, Ev.text (fisGreet (String.toList ("octocat"))), Ev.done] ∧
    (fisLoop [] []).1 = [] ∧ (fisLoop [] []).2 = false ∧
    (∀ e ∈ fisHandler (Upstream.streamReads []) (String.toList ("octocat")),
      isTextEv e = true → e = Ev.text (fisGreet (String.toList ("octocat")))) := by
  refine ⟨rfl, rfl, rfl, ?_⟩
  decide

/-- C10: on every opened stream the part_001 handler emits, right after
Ack and before any fragment Text, exactly one greeting Text beginning
`Hi <login>!`; and the greeting does not count as valid content — with
zero extracted fragments the fallback Text still fires, even though the
greeting Text was already emitted. -/
theorem c10_greeting (login : List Char) (rs : List ReadRes) :
    (handler1 (Upstream.streamReads rs) login).take 2
      = [Ev.ack, Ev.text (greet1 login)] ∧
    (∃ z, greet1 login = String.toList ("Hi ") ++ login ++ '!' :: z) ∧
    ((loop1 rs [] false 0).2 = false →
      handler1 (Upstream.streamReads rs) login
        = [Ev.ack, Ev.text (greet1 login), Ev.text fallbackMsg, Ev.done]) := by
  refine ⟨rfl, ?_, ?_⟩
  · refine ⟨String.toList
      (" 🤖\n\nStarting your request... This may take up to 3 minutes depending on the model complexity.\n\n"), ?_⟩
    have hbang : String.toList
        ("! 🤖\n\nStarting your request... This may take up to 3 minutes depending on the model complexity.\n\n")
        = '!' :: String.toList
        (" 🤖\n\nStarting your request... This may take up to 3 minutes depending on the model complexity.\n\n") := by
      decide
    unfold greet1
    rw [hbang]
  · intro h
    obtain ⟨-, hnil⟩ := loop1_hv_false rs [] false 0 h
    simp [handler1, hnil, h]

/-- Witness for C10: concrete login, empty stream. -/
theorem c10_witness :
    ((loop1 ([] : List ReadRes) [] false 0).2 = false) ∧
    ((handler1 (Upstream.streamReads []) (String.toList ("mona"))).take 2
        = [Ev.ack, Ev.text (greet1 (String.toList ("mona")))]) ∧
    handler1 (Upstream.streamReads []) (String.toList ("mona"))
      = [Ev.ack, Ev.text (greet1 (String.toList ("mona"))),
         Ev.text fallbackMsg, Ev.done] :=
  ⟨rfl, (c10_greeting (String.toList ("mona")) []).1,
   (c10_greeting (String.toList ("mona")) []).2.2 rfl⟩

/-- The `||` chain followed by the final falsiness check selects exactly
the first truthy candidate. -/
theorem jsOrVal_chain_eq (a b c : Option Json) :
    (match jsOrVal (jsOrVal a b) c with
     | none => Except.error missingThreadMsg
     | some v =>
       if jsFalsy v then Except.error missingThreadMsg else Except.ok v)
    = (match firstTruthy [a, b, c] with
       | none => Except.error (missingThreadMsg : List Char)
       | some v => Except.ok v) := by
  rcases a with - | va <;> rcases b with - | vb <;> rcases c with - | vc <;>
    simp only [jsOrVal, firstTruthy] <;> split_ifs <;> simp_all

/-- C8 (amended): `createConversation` rejects with a descriptive error
whenever the response is not successful, whenever a successful response's
body is not JSON, and whenever no recognized handle field holds a *truthy*
value — even if such a field is present with a falsy value such as `""`;
otherwise it returns the value of the first truthy field in the priority
order `thread_id`, `id`, `uuid`. -/
theorem c8_amended_create_conversation (r : CreateResp) :
    (r.ok = false →
      createConversation r = Except.error (createFailMsg r.body) ∧
      createFailMsg r.body ≠ []) ∧
    (∀ j, r.ok = true → parseJson r.body = some j →
      (firstTruthyHandleField j = none →
        createConversation r = Except.error missingThreadMsg ∧
        missingThreadMsg ≠ []) ∧
      (∀ h, firstTruthyHandleField j = some h →
        createConversation r = Except.ok h)) ∧
    (r.ok = true → parseJson r.body = none →
      createConversation r = Except.error jsonRejectMsg ∧
      jsonRejectMsg ≠ []) := by
  refine ⟨?_, ?_, ?_⟩
  · intro h
    constructor
    · unfold createConversation
      rw [if_pos h]
    · intro hc
      exact absurd (List.append_eq_nil.mp hc).1 (by decide)
  · intro j hok hparse
    have hred : createConversation r
        = (match firstTruthy [jGet j keyThreadId, jGet j keyId,
            jGet j keyUuid] with
           | none => Except.error (missingThreadMsg : List Char)
           | some v => Except.ok v) := by
      unfold createConversation
      rw [if_neg (by simp [hok]), hparse, jsOrVal_chain_eq]
    constructor
    · intro hnone
      unfold firstTruthyHandleField at hnone
      rw [hred, hnone]
      exact ⟨rfl, by decide⟩
    · intro h hsome
      unfold firstTruthyHandleField at hsome
      rw [hred, hsome]
  · intro hok hparse
    unfold createConversation
    rw [if_neg (by simp [hok]), hparse]
    exact ⟨rfl, by decide⟩

/-- Witness for C8 (amended): a successful response carrying
`thread_id: "T1"` yields that handle; the same body with `ok = false`
is rejected with the descriptive creation-failure message. -/
theorem c8_witness :
    createConversation ⟨true, c8body⟩
      = Except.ok (Json.str (String.toList ("T1"))) ∧
    createConversation ⟨false, c8body⟩
      = Except.error (createFailMsg c8body) :=
  ⟨((c8_amended_create_conversation ⟨true, c8body⟩).2.1 c8json rfl rfl).2
     (Json.str (String.toList ("T1"))) rfl,
   ((c8_amended_create_conversation ⟨false, c8body⟩).1 rfl).1⟩

/-- C8 is false as stated: on the successful response
`{"thread_id":"","id":"B"}` the recognized field `thread_id` *is* present
(with the falsy value `""`), yet the code skips it and returns `"B"` from
`id` — it takes the first *truthy* field, not the first *present* one. -/
theorem c8_counterexample :
    createConversation ⟨true, c8cexBody⟩
      = Except.ok (Json.str (String.toList ("B"))) ∧
    Option.bind (parseJson c8cexBody) firstPresentHandleField
      = some (Json.str []) ∧
    Json.str [] ≠ Json.str (String.toList ("B")) := by
  refine ⟨rfl, rfl, ?_⟩
  intro h
  exact absurd (Json.str.inj h) (by decide)

/-- A successfully returned handle is always truthy: the falsy case was
rejected with `missingThreadMsg`. -/
theorem createConversation_truthy (r : CreateResp) (h : Json)
    (hok : createConversation r = Except.ok h) : jsFalsy h = false := by
  unfold createConversation at hok
  by_cases h1 : r.ok = false
  · rw [if_pos h1] at hok
    exact absurd hok (by simp)
  · rw [if_neg h1] at hok
    split at hok
    · exact absurd hok (by simp)
    · split at hok
      · exact absurd hok (by simp)
      · split at hok
        · exact absurd hok (by simp)
        · next hfv =>
          cases hok
          simpa using hfv

/-- C7: two sequential requests from the same identity issue exactly one
conversation-creation call and two run-open calls against the same handle
(whatever the second request's creation response would have been); two
requests from different identities issue two creation calls; and on the
warm path `resolveThread` returns the stored handle with the state
untouched, independent of the upstream response. -/
theorem c7_session_reuse :
    (∀ (login : List Char) (r r2 : CreateResp) (h : Json),
      createConversation r = Except.ok h →
      twoRequests login r login r2
          = Except.ok ⟨[(login, h)], 1, [h, h]⟩ ∧
      List.lookup login ([(login, h)] : List (List Char × Json)) = some h) ∧
    (∀ (l1 l2 : List Char) (r1 r2 : CreateResp) (h1 h2 : Json),
      l1 ≠ l2 →
      createConversation r1 = Except.ok h1 →
      createConversation r2 = Except.ok h2 →
      ∃ m, twoRequests l1 r1 l2 r2 = Except.ok ⟨m, 2, [h1, h2]⟩) ∧
    (∀ (st : BridgeState) (login : List Char) (t : Json) (r : CreateResp),
      List.lookup login st.userThreads = some t → jsFalsy t = false →
      resolveThread st login r = Except.ok (t, st)) := by
  refine ⟨?_, ?_, ?_⟩
  · intro login r r2 h hc
    have htr := createConversation_truthy r h hc
    constructor
    · simp [twoRequests, doRequest, resolveThread, resolveCold,
        emptyBridgeState, mapSet, List.lookup, hc, htr]
    · simp [List.lookup]
  · intro l1 l2 r1 r2 h1 h2 hne hc1 hc2
    have hbeq : (l2 == l1) = false := beq_false_of_ne (Ne.symm hne)
    refine ⟨mapSet [(l1, h1)] l2 h2, ?_⟩
    simp [twoRequests, doRequest, resolveThread, resolveCold,
      emptyBridgeState, mapSet, List.lookup, hc1, hc2, hbeq]
  · intro st login t r hl hf
    unfold resolveThread
    rw [hl]
    show (if jsFalsy t = true then resolveCold st login r
        else Except.ok (t, st)) = Except.ok (t, st)
    rw [if_neg (by simp [hf])]

/-- Witness for C7: identity `alice`, upstream handle `T1`; the second
request's would-be creation response is irrelevant on the warm path. -/
theorem c7_witness :
    twoRequests (String.toList ("alice")) ⟨true, c8body⟩
        (String.toList ("alice")) ⟨true, String.toList ("\x7b\x7d")⟩
      = Except.ok ⟨[(String.toList ("alice"),
            Json.str (String.toList ("T1")))], 1,
          [Json.str (String.toList ("T1")),
           Json.str (String.toList ("T1"))]⟩ ∧
    List.lookup (String.toList ("alice"))
        ([(String.toList ("alice"), Json.str (String.toList ("T1")))]
          : List (List Char × Json))
      = some (Json.str (String.toList ("T1"))) :=
  c7_session_reuse.1 (String.toList ("alice")) ⟨true, c8body⟩
    ⟨true, String.toList ("\x7b\x7d")⟩ (Json.str (String.toList ("T1"))) rfl
